import Mathlib

/-!
Verification development for the telemetry aggregation and fitness-scoring
pipeline of the SelfGrowNetworkDefense analysis scripts
(scripts/telemetry_utils.py and scripts/prepare_telemetry_dashboard.py).

Python floats are modelled as exact rationals, Python ints as integers
(counts as naturals where the source only ever accumulates nonnegative
counts), Python dicts used as insertion-ordered maps as association lists,
and exceptions as Except values.
-/

namespace SelfGrow

/-- Telemetry event, the tagged variant carried by each log line.
Variants with payloads the aggregation never inspects (CellDied, LinkAdded,
LinkRemoved, VoteCast, Scenario) are collapsed into `other`: the digest loop
of _digest_buffer ignores them uniformly. -/
inductive Event where
  | stepSummary (step : ℤ) (threat_score : ℚ) (cell_count : ℤ)
  | cellReplicated
  | signalEmitted (topic : String)
  | lineageShift (lineage : String)
  | other
deriving DecidableEq, Repr

/-- Whether an event dict contains the key "StepSummary". -/
def Event.isStepSummary : Event → Bool
  | .stepSummary _ _ _ => true
  | _ => false

/-- Whether an event is a StepSummary carrying the given step value. -/
def Event.isSummaryFor (s : ℤ) : Event → Bool
  | .stepSummary s' _ _ => s' = s
  | _ => false

/-- Counter increment on an insertion-ordered association list:
`counter[key] += 1` with a missing key read as 0. -/
def bump (m : List (String × ℕ)) (k : String) : List (String × ℕ) :=
  match m with
  | [] => [(k, 1)]
  | (k', v) :: rest => if k' = k then (k', v + 1) :: rest else (k', v) :: bump rest k

/-- Counter read: number stored for a key, 0 when absent. -/
def countOf (m : List (String × ℕ)) (k : String) : ℕ :=
  (m.lookup k).getD 0

/-- Result of digesting one buffer of non-boundary events
(scripts/telemetry_utils.py, _digest_buffer). -/
structure DigestStats where
  replications : ℕ
  signals : List (String × ℕ)
  lineage_shifts : List (String × ℕ)
deriving DecidableEq, Repr

/-- One iteration of the _digest_buffer loop. -/
def digestStep (d : DigestStats) (e : Event) : DigestStats :=
  match e with
  | .cellReplicated => { d with replications := d.replications + 1 }
  | .signalEmitted topic => { d with signals := bump d.signals topic }
  | .lineageShift lineage => { d with lineage_shifts := bump d.lineage_shifts lineage }
  | _ => d

/-- Digest a buffer of events accumulated since the previous boundary
(scripts/telemetry_utils.py, _digest_buffer). -/
def digestBuffer (buffer : List Event) : DigestStats :=
  buffer.foldl digestStep ⟨0, [], []⟩

/-- Per-step metrics finalised at a StepSummary boundary
(scripts/telemetry_utils.py, load_telemetry_per_step). -/
structure StepMetrics where
  threat_score : ℚ
  cell_count : ℤ
  replications : ℕ
  signals : List (String × ℕ)
  lineage_shifts : List (String × ℕ)
deriving DecidableEq, Repr

/-- Python dict assignment `per_step[step] = v`: replace in place when the
key is present, append otherwise (insertion order preserved). -/
def insertStep (m : List (ℤ × StepMetrics)) (k : ℤ) (v : StepMetrics) :
    List (ℤ × StepMetrics) :=
  match m with
  | [] => [(k, v)]
  | (k', v') :: rest =>
      if k' = k then (k, v) :: rest else (k', v') :: insertStep rest k v

/-- State threaded through the load_telemetry_per_step loop: the per_step
mapping built so far, and the buffer of events since the last boundary. -/
structure LoadState where
  per_step : List (ℤ × StepMetrics)
  buffer : List Event
deriving DecidableEq, Repr

/-- One iteration of the load_telemetry_per_step loop body on an
already-decoded event: a StepSummary digests and clears the buffer and
finalises the step keyed by the step value it carries; every other event is
appended to the buffer. -/
def loadStep (st : LoadState) (e : Event) : LoadState :=
  match e with
  | .stepSummary s t c =>
      let stats := digestBuffer st.buffer
      { per_step := insertStep st.per_step s
          ⟨t, c, stats.replications, stats.signals, stats.lineage_shifts⟩,
        buffer := [] }
  | e => { st with buffer := st.buffer ++ [e] }

/-- Process an ordered event stream from the empty state. -/
def processEvents (evs : List Event) : LoadState :=
  evs.foldl loadStep ⟨[], []⟩

/-- The per-step mapping returned by load_telemetry_per_step for an
already-decoded event stream. -/
def loadTelemetryPerStep (evs : List Event) : List (ℤ × StepMetrics) :=
  (processEvents evs).per_step

/-- A raw line of the telemetry JSONL file: blank, malformed (fails to decode
as the expected schema), or a well-formed record carrying a timestamp and an
event. -/
inductive Line where
  | blank
  | malformed
  | record (timestamp_ms : ℤ) (event : Event)
deriving DecidableEq, Repr

/-- Whether a line is malformed. -/
def Line.isMalformed : Line → Bool
  | .malformed => true
  | _ => false

/-- One iteration of the load_telemetry_per_step file loop, decoding
included: blank lines are skipped; json.loads (or the schema accesses) on a
malformed line raises, which propagates out of the function. -/
def loadLinesStep (st : LoadState) (l : Line) : Except String LoadState :=
  match l with
  | .blank => .ok st
  | .malformed => .error "failed to parse line"
  | .record _ e => .ok (loadStep st e)

/-- Model of load_telemetry_per_step over raw lines: the body loop in an
exception monad. A raised decode error aborts the whole call, so the caller
receives no per-step data at all. -/
def loadTelemetryLines (lines : List Line) : Except String LoadState :=
  lines.foldlM loadLinesStep ⟨[], []⟩

/-- Per-step stimulus aggregate (scripts/telemetry_utils.py, load_stimuli):
running total and per-topic totals. -/
structure StimEntry where
  total : ℚ
  topics : List (String × ℚ)
deriving DecidableEq, Repr

/-- One decoded line of the stimulus JSONL file (the duration field is
never read by the aggregation). -/
structure StimulusRecord where
  step : ℤ
  topic : String
  value : ℚ
deriving DecidableEq, Repr

/-- Accumulate `entry["topics"][topic] += value` on an insertion-ordered
association list with missing keys read as 0.0. -/
def bumpValue (m : List (String × ℚ)) (k : String) (v : ℚ) : List (String × ℚ) :=
  match m with
  | [] => [(k, v)]
  | (k', v') :: rest => if k' = k then (k', v' + v) :: rest else (k', v') :: bumpValue rest k v

/-- Python dict read-or-create on the stimulus defaultdict, then
`total += value` and `topics[topic] += value`, written back in place. -/
def stimuliStep (m : List (ℤ × StimEntry)) (r : StimulusRecord) : List (ℤ × StimEntry) :=
  match m with
  | [] => [(r.step, ⟨r.value, [(r.topic, r.value)]⟩)]
  | (s, e) :: rest =>
      if s = r.step then (s, ⟨e.total + r.value, bumpValue e.topics r.topic r.value⟩) :: rest
      else (s, e) :: stimuliStep rest r

/-- Model of load_stimuli: fold the optional stimulus log into a per-step
mapping; a missing path yields the empty mapping. -/
def load_stimuli (records : Option (List StimulusRecord)) : List (ℤ × StimEntry) :=
  match records with
  | none => []
  | some rs => rs.foldl stimuliStep []

/-- Python `stimuli.get(step, {"total": 0.0, "topics": {}})`. -/
def stimGet (m : List (ℤ × StimEntry)) (s : ℤ) : StimEntry :=
  ((m.lookup s).getD ⟨0, []⟩)

/-- Python `_sum_values`: sum of the counts stored in a counter dict. -/
def sumValues (m : List (String × ℕ)) : ℕ :=
  (m.map (fun p => p.2)).sum

/-- Counter.update with another counter dict: add each of its counts
(`signals_by_topic.update(signal_counts)` semantics on Counter). -/
def bumpBy (m : List (String × ℕ)) (k : String) (v : ℕ) : List (String × ℕ) :=
  match m with
  | [] => [(k, v)]
  | (k', v') :: rest => if k' = k then (k', v' + v) :: rest else (k', v') :: bumpBy rest k v

/-- Fold one step's counter dict into the run-level counter. -/
def addCounts (acc : List (String × ℕ)) (step : List (String × ℕ)) : List (String × ℕ) :=
  step.foldl (fun a p => bumpBy a p.1 p.2) acc

/-- Fold one step's stimulus topic totals into the run-level defaultdict
(`stimuli_by_topic[topic] += value` per topic). -/
def addStimuli (acc : List (String × ℚ)) (step : List (String × ℚ)) : List (String × ℚ) :=
  step.foldl (fun a p => bumpValue a p.1 p.2) acc

/-- Mutable aggregate state of build_step_rows
(scripts/prepare_telemetry_dashboard.py, _initialise_aggregates). -/
structure Aggregates where
  step_count : ℕ
  threat_sum : ℚ
  max_threat : ℚ
  cell_sum : ℚ
  min_cell : Option ℤ
  max_cell : ℤ
  total_replications : ℕ
  total_signals : ℕ
  total_lineage_shifts : ℕ
  total_stimulus : ℚ
  signals_by_topic : List (String × ℕ)
  lineage_by_type : List (String × ℕ)
  stimuli_by_topic : List (String × ℚ)
deriving DecidableEq, Repr

/-- The initial aggregate state (_initialise_aggregates): zero counters, no
minimum cell count yet, max_threat and max_cell both start at 0. -/
def initialiseAggregates : Aggregates :=
  ⟨0, 0, 0, 0, none, 0, 0, 0, 0, 0, [], [], []⟩

/-- One _accumulate_aggregates call for a finalised step's metrics and its
stimulus entry. -/
def accumulateAggregates (a : Aggregates) (metrics : StepMetrics) (stim : StimEntry) :
    Aggregates :=
  { step_count := a.step_count + 1
    threat_sum := a.threat_sum + metrics.threat_score
    max_threat := max a.max_threat metrics.threat_score
    cell_sum := a.cell_sum + (metrics.cell_count : ℚ)
    min_cell := some (match a.min_cell with
      | none => metrics.cell_count
      | some m => min m metrics.cell_count)
    max_cell := max a.max_cell metrics.cell_count
    total_replications := a.total_replications + metrics.replications
    total_signals := a.total_signals + sumValues metrics.signals
    total_lineage_shifts := a.total_lineage_shifts + sumValues metrics.lineage_shifts
    total_stimulus := a.total_stimulus + stim.total
    signals_by_topic := addCounts a.signals_by_topic metrics.signals
    lineage_by_type := addCounts a.lineage_by_type metrics.lineage_shifts
    stimuli_by_topic := addStimuli a.stimuli_by_topic stim.topics }

/-- Run-level statistics (_finalise_aggregates output). Fields that the
source only ever fills with nonnegative accumulated counts are naturals. -/
structure RunStats where
  step_count : ℕ
  avg_threat : ℚ
  max_threat : ℚ
  avg_cell_count : ℚ
  min_cell_count : ℤ
  max_cell_count : ℤ
  total_replications : ℕ
  total_signals : ℕ
  total_lineage_shifts : ℕ
  total_stimulus : ℚ
  signals_by_topic : List (String × ℕ)
  lineage_by_type : List (String × ℕ)
  stimuli_by_topic : List (String × ℚ)
deriving DecidableEq, Repr

/-- The _finalise_aggregates step: means use a denominator floor of
`max(1, step_count)`; `aggregates["min_cell"] or 0` reads a missing (or
zero) minimum as 0. -/
def finaliseAggregates (a : Aggregates) : RunStats :=
  { step_count := a.step_count
    avg_threat := a.threat_sum / (max 1 a.step_count : ℕ)
    max_threat := a.max_threat
    avg_cell_count := a.cell_sum / (max 1 a.step_count : ℕ)
    min_cell_count := a.min_cell.getD 0
    max_cell_count := a.max_cell
    total_replications := a.total_replications
    total_signals := a.total_signals
    total_lineage_shifts := a.total_lineage_shifts
    total_stimulus := a.total_stimulus
    signals_by_topic := a.signals_by_topic
    lineage_by_type := a.lineage_by_type
    stimuli_by_topic := a.stimuli_by_topic }

/-- The _accumulate_aggregates call on a (metrics, stimulus entry) pair. -/
def accumulateStep (a : Aggregates) (p : StepMetrics × StimEntry) : Aggregates :=
  accumulateAggregates a p.1 p.2

/-- Fold a sequence of finalised steps (each paired with its stimulus
entry) into run-level statistics, exactly as build_step_rows threads
_initialise_aggregates, _accumulate_aggregates and _finalise_aggregates. -/
def aggregateSteps (l : List (StepMetrics × StimEntry)) : RunStats :=
  finaliseAggregates (l.foldl accumulateStep initialiseAggregates)

/-- Python _clamp with its default bounds: clamp into [0, 1]. -/
def clamp (value : ℚ) : ℚ :=
  max 0 (min 1 value)

/-- Python _compute_lineage_pressure. -/
def computeLineagePressure (stats : RunStats) : ℚ :=
  let step_count : ℕ := max 1 stats.step_count
  let pressure : ℚ := (stats.total_lineage_shifts : ℚ) / (step_count : ℚ)
  clamp (pressure / 0.6)

/-- Python _compute_lineage_focus_ratio: 0 when there are no shifts,
otherwise the dominant lineage count over the total. -/
def computeLineageFocusRatio (stats : RunStats) : ℚ :=
  if stats.total_lineage_shifts = 0 then 0
  else
    let dominant : ℕ := ((stats.lineage_by_type.map (fun p => p.2)).max?).getD 0
    clamp ((dominant : ℚ) / (stats.total_lineage_shifts : ℚ))

/-- Python _compute_suppression_component. -/
def computeSuppressionComponent (stats : RunStats) : ℚ :=
  let step_count : ℚ := max 1 (stats.step_count : ℚ)
  let reproduction_rate : ℚ := (stats.total_replications : ℚ) / step_count
  max 0 (1 - min reproduction_rate 1)

/-- Python _compute_cell_loss_component. -/
def computeCellLossComponent (stats : RunStats) : ℚ :=
  if stats.max_cell_count = 0 then 0
  else
    let deficit : ℤ := stats.max_cell_count - stats.min_cell_count
    clamp ((deficit : ℚ) / (stats.max_cell_count : ℚ))

/-- Python _compute_stimulus_component. -/
def computeStimulusComponent (stats : RunStats) : ℚ :=
  let step_count : ℚ := max 1 (stats.step_count : ℚ)
  clamp (stats.total_stimulus / (step_count * 1.5))

/-- Python `stimuli.get(topic, 0.0)` on the run-level stimulus totals. -/
def stimulusTotalFor (stats : RunStats) (topic : String) : ℚ :=
  ((stats.stimuli_by_topic.lookup topic).getD 0)

/-- Python _recommend_mutation: the ordered if/elif decision chain; the
first matching branch returns, later rules are never evaluated. The
returned Option models `str | None`. -/
def recommendMutation (stats : RunStats) (fitness : ℚ) (breach : Bool) : Option String :=
  let step_count : ℚ := max 1 (stats.step_count : ℚ)
  let reproductions : ℚ := (stats.total_replications : ℚ) / step_count
  let lineage_pressure : ℚ := (stats.total_lineage_shifts : ℚ) / step_count
  let dom : Option String × ℕ := stats.lineage_by_type.foldl
    (fun best p => if p.2 > best.2 then (some p.1, p.2) else best) (none, 0)
  let dominant_lineage : Option String := dom.1
  let dominant_count : ℕ := dom.2
  let total_lineage : ℕ := stats.total_lineage_shifts
  let dominant_ratio : ℚ :=
    if total_lineage = 0 then 0 else (dominant_count : ℚ) / (total_lineage : ℚ)
  let activator : ℚ := stimulusTotalFor stats "activator"
  let inhibitor : ℚ := stimulusTotalFor stats "inhibitor"
  if fitness < 0.4 then
    if activator ≤ inhibitor then
      some "increase activator spike amplitude and damp inhibitor recovery"
    else
      some "inject cooperative decoys ahead of activator bursts to overwhelm defences"
  else if breach then
    if stats.total_signals < stats.step_count then
      some "extend breach window with sustained activator pulses post-impact"
    else
      some "tighten attack cadence: alternate activator and inhibitor surges faster"
  else if lineage_pressure < 0.2 then
    some "escalate lineage churn by targeting secondary cell lineages with staggered activator bursts"
  else if dominant_ratio < 0.5 ∧ total_lineage > 3 then
    match dominant_lineage with
    | some lin =>
        some ("focus mutation pressure on the " ++ lin ++ " lineage to consolidate takeovers")
    | none =>
        some "focus mutation pressure on the highest-yield lineage to consolidate takeovers"
  else if reproductions > 0.6 then
    some "slow defensive replication by scheduling inhibitor spikes before activator peaks"
  else if inhibitor > activator ∧ activator > 0 then
    some "rebalance stimuli by boosting activator intensity relative to inhibitor damping"
  else
    none

/-- The lineage-aware fitness outputs of derive_harness_annotations.
recommended_mutation holds the final string (`mutation or ""`). -/
structure FitnessMarks where
  lineage_pressure : ℚ
  lineage_focus_ratio : ℚ
  lineage_component : ℚ
  fitness_score : ℚ
  breach_observed : Bool
  recommended_mutation : String
deriving DecidableEq, Repr

/-- Python derive_harness_annotations. The `not stats` guard of the source
can only see an empty dict when no aggregation ran, which coincides with
`step_count == 0` here. -/
def deriveHarnessMarks (stats : RunStats) : FitnessMarks :=
  if stats.step_count = 0 then
    ⟨0, 0, 0, 0, false, ""⟩
  else
    let lineage_pressure := computeLineagePressure stats
    let focus_ratio := computeLineageFocusRatio stats
    let lineage_component := clamp (0.6 * lineage_pressure + 0.4 * focus_ratio)
    let suppression_component := computeSuppressionComponent stats
    let cell_loss_component := computeCellLossComponent stats
    let stimulus_component := computeStimulusComponent stats
    let fitness :=
      0.35 * clamp (stats.avg_threat / 1.5)
      + 0.2 * suppression_component
      + 0.15 * cell_loss_component
      + 0.2 * lineage_component
      + 0.1 * stimulus_component
    let breach_observed : Bool :=
      decide (fitness > 0.65
        ∨ stats.max_threat > 1.1
        ∨ cell_loss_component > 0.45
        ∨ lineage_component > 0.8)
    let mutation := (recommendMutation stats fitness breach_observed).getD ""
    ⟨lineage_pressure, focus_ratio, lineage_component, fitness, breach_observed, mutation⟩

/-- Python _top_item: `max(payload.items(), key=...)` over a counter dict;
Python max keeps the earliest item among ties, replacing only on a strictly
greater count. The empty dict yields `(None, 0)`. -/
def topItem (payload : List (String × ℕ)) : Option String × ℕ :=
  match payload with
  | [] => (none, 0)
  | p :: rest =>
      let best := rest.foldl (fun b q => if q.2 > b.2 then q else b) p
      (some best.1, best.2)

/-- One per-step CSV row as first built inside build_step_rows (the
annotation columns are added later by apply_annotations). The three
JSON-dump columns store the underlying insertion-ordered dicts in lieu of
their serialised text. -/
structure Row where
  step : ℤ
  threat_score : ℚ
  cell_count : ℤ
  replications : ℕ
  signals_total : ℕ
  lineage_shifts_total : ℕ
  stimulus_total : ℚ
  top_signal_topic : String
  top_signal_count : ℕ
  top_lineage : String
  top_lineage_count : ℕ
  signals_by_topic : List (String × ℕ)
  lineage_shifts_by_lineage : List (String × ℕ)
  stimulus_by_topic : List (String × ℚ)
deriving DecidableEq, Repr

/-- A row after apply_annotations has added the six run-level columns. -/
structure AnnotatedRow extends Row where
  lineage_pressure : ℚ
  lineage_focus_ratio : ℚ
  lineage_component : ℚ
  fitness_score : ℚ
  breach_observed : Bool
  recommended_mutation : String
deriving DecidableEq, Repr

/-- The row dict appended for one step inside the build_step_rows loop. -/
def mkBaseRow (step : ℤ) (metrics : StepMetrics) (stim : StimEntry) : Row :=
  let tops := topItem metrics.signals
  let topl := topItem metrics.lineage_shifts
  { step := step
    threat_score := metrics.threat_score
    cell_count := metrics.cell_count
    replications := metrics.replications
    signals_total := sumValues metrics.signals
    lineage_shifts_total := sumValues metrics.lineage_shifts
    stimulus_total := stim.total
    top_signal_topic := tops.1.getD ""
    top_signal_count := tops.2
    top_lineage := topl.1.getD ""
    top_lineage_count := topl.2
    signals_by_topic := metrics.signals
    lineage_shifts_by_lineage := metrics.lineage_shifts
    stimulus_by_topic := stim.topics }

/-- Stable insertion of an entry into a step-sorted association list. -/
def insertSorted (x : ℤ × StepMetrics) : List (ℤ × StepMetrics) → List (ℤ × StepMetrics)
  | [] => [x]
  | y :: ys => if x.1 ≤ y.1 then x :: y :: ys else y :: insertSorted x ys

/-- Python `sorted(per_step)` iteration order: the per-step entries sorted
ascending by step key (keys are unique by construction of insertStep). -/
def sortByStep (l : List (ℤ × StepMetrics)) : List (ℤ × StepMetrics) :=
  l.foldr insertSorted []

/-- One iteration of the build_step_rows loop: fetch the step's stimulus
entry, feed the run-level aggregate, and append the step's row. -/
def buildStepRowsStep (stimuli : List (ℤ × StimEntry)) (acc : List Row × Aggregates)
    (p : ℤ × StepMetrics) : List Row × Aggregates :=
  let stim := stimGet stimuli p.1
  (acc.1 ++ [mkBaseRow p.1 p.2 stim], accumulateAggregates acc.2 p.2 stim)

/-- Python build_step_rows: one pass over the sorted steps, appending a row
and feeding the run-level aggregate for each, then finalising. -/
def buildStepRows (per_step : List (ℤ × StepMetrics)) (stimuli : List (ℤ × StimEntry)) :
    List Row × RunStats :=
  let sorted := sortByStep per_step
  let acc := sorted.foldl (buildStepRowsStep stimuli) ([], initialiseAggregates)
  (acc.1, finaliseAggregates acc.2)

/-- Python `round(x, 6)` on the annotation columns, modelled as exact
rounding of the rational to six decimal places. -/
def round6 (x : ℚ) : ℚ :=
  (round (x * 1000000) : ℚ) / 1000000

/-- Python apply_annotations: every row is updated in place with the same
run-level annotation values, numeric ones rounded to six decimals. -/
def applyMarks (rows : List Row) (marks : FitnessMarks) : List AnnotatedRow :=
  rows.map (fun r =>
    { toRow := r
      lineage_pressure := round6 marks.lineage_pressure
      lineage_focus_ratio := round6 marks.lineage_focus_ratio
      lineage_component := round6 marks.lineage_component
      fitness_score := round6 marks.fitness_score
      breach_observed := marks.breach_observed
      recommended_mutation := marks.recommended_mutation })

/-- The key set of every annotated row dict: dict membership
`metric in rows[0]` inside build_vega_spec is membership in this list. -/
def rowKeys : List String :=
  ["step", "threat_score", "cell_count", "replications", "signals_total",
   "lineage_shifts_total", "stimulus_total", "top_signal_topic",
   "top_signal_count", "top_lineage", "top_lineage_count",
   "signals_by_topic", "lineage_shifts_by_lineage", "stimulus_by_topic",
   "lineage_pressure", "lineage_focus_ratio", "lineage_component",
   "fitness_score", "breach_observed", "recommended_mutation"]

/-- Python build_vega_spec reduced to its control flow: it raises on an
empty row list, filters the requested metrics down to columns present in
the first row, raises when none survive, and otherwise embeds the
surviving list in the returned spec (returned here directly). -/
def buildVegaSpec (rows : List AnnotatedRow) (metrics : List String) :
    Except String (List String) :=
  if rows.isEmpty then
    .error "Cannot build a Vega-Lite spec without rows."
  else
    let valid_metrics := metrics.filter (fun m => rowKeys.contains m)
    if valid_metrics.isEmpty then
      .error "No valid metrics provided for Vega-Lite spec generation."
    else
      .ok valid_metrics

/-- Output files the dashboard script can write, in the order main writes
them. -/
inductive OutFile where
  | stepCsv
  | lineageCsv
  | vegaJson
deriving DecidableEq, Repr

/-- The dashboard pipeline of main up to the annotated rows: load, build
rows and run statistics, derive the run-level figures, stamp them onto the
rows. -/
def pipelineRows (evs : List Event) (stimRecords : Option (List StimulusRecord)) :
    List AnnotatedRow :=
  let built := buildStepRows (loadTelemetryPerStep evs) (load_stimuli stimRecords)
  applyMarks built.1 (deriveHarnessMarks built.2)

/-- The run-level figures computed once by the pipeline of main. -/
def pipelineMarks (evs : List Event) (stimRecords : Option (List StimulusRecord)) :
    FitnessMarks :=
  deriveHarnessMarks (buildStepRows (loadTelemetryPerStep evs) (load_stimuli stimRecords)).2

/-- Python main after loading succeeded: the trace of files written, in
order, and the error message of an uncaught ValueError if one is raised.
The per-step CSV (and the optional lineage CSV) are written before
build_vega_spec runs. -/
def runMain (evs : List Event) (stimRecords : Option (List StimulusRecord))
    (metrics : List String) (wantLineage wantVega : Bool) :
    List OutFile × Option String :=
  if (loadTelemetryPerStep evs).isEmpty then ([], none)
  else
    let rows := pipelineRows evs stimRecords
    let outs := if wantLineage then [OutFile.stepCsv, OutFile.lineageCsv] else [OutFile.stepCsv]
    if wantVega then
      match buildVegaSpec rows metrics with
      | .error msg => (outs, some msg)
      | .ok _ => (outs ++ [OutFile.vegaJson], none)
    else (outs, none)

/-- Whether the stream position right before a window is a boundary: the
preceding events either are empty (start of stream) or end with a
StepSummary, so the buffer is empty when the window opens. -/
def boundaryAligned (pre : List Event) : Bool :=
  match pre.getLast? with
  | none => true
  | some e => e.isStepSummary

/-- Whether an event is a CellReplicated record. -/
def Event.isCellReplicated : Event → Bool
  | .cellReplicated => true
  | _ => false

/-- Whether an event is a SignalEmitted record on the given topic. -/
def Event.isSignalOn (t : String) : Event → Bool
  | .signalEmitted t' => t' = t
  | _ => false

/-- Whether an event is a LineageShift record to the given lineage. -/
def Event.isShiftOf (l : String) : Event → Bool
  | .lineageShift l' => l' = l
  | _ => false

/-- Mathematical maximum of a list of rationals (0 on the empty list,
which is never used below). -/
def listMax : List ℚ → ℚ
  | [] => 0
  | [x] => x
  | x :: y :: tl => max x (listMax (y :: tl))

section Lemmas

theorem loadStep_non_summary {e : Event} (st : LoadState) (h : e.isStepSummary = false) :
    loadStep st e = ⟨st.per_step, st.buffer ++ [e]⟩ := by
  cases e <;> simp_all [loadStep, Event.isStepSummary]

theorem foldl_loadStep_no_summary (l : List Event) :
    ∀ st : LoadState, (∀ e ∈ l, e.isStepSummary = false) →
      l.foldl loadStep st = ⟨st.per_step, st.buffer ++ l⟩ := by
  induction l with
  | nil => intro st _; simp
  | cons e tl ih =>
      intro st h
      rw [List.foldl_cons, loadStep_non_summary st (h e (by simp))]
      rw [ih ⟨st.per_step, st.buffer ++ [e]⟩ (fun e' he' => h e' (by simp [he']))]
      simp

theorem lookup_insertStep_self (m : List (ℤ × StepMetrics)) (k : ℤ) (v : StepMetrics) :
    (insertStep m k v).lookup k = some v := by
  induction m with
  | nil => simp [insertStep, List.lookup]
  | cons p m ih =>
      by_cases h : p.1 = k
      · simp [insertStep, h, List.lookup]
      · have hb : (k == p.1) = false := by
          simp [beq_eq_false_iff_ne]
          exact fun hk => h hk.symm
        simp [insertStep, h, List.lookup, hb, ih]

theorem lookup_insertStep_ne (m : List (ℤ × StepMetrics)) (k s : ℤ) (v : StepMetrics)
    (h : k ≠ s) : (insertStep m k v).lookup s = m.lookup s := by
  have hb : (s == k) = false := by
    simp [beq_eq_false_iff_ne]
    exact fun hk => h hk.symm
  induction m with
  | nil => simp [insertStep, List.lookup, hb]
  | cons p m ih =>
      by_cases hp : p.1 = k
      · subst hp
        simp [insertStep, List.lookup, hb]
      · simp [insertStep, hp, List.lookup, ih]

theorem foldl_lookup_no_summary_for (l : List Event) (s : ℤ) :
    ∀ st : LoadState, (∀ e ∈ l, e.isSummaryFor s = false) →
      (l.foldl loadStep st).per_step.lookup s = st.per_step.lookup s := by
  induction l with
  | nil => intro st _; rfl
  | cons e tl ih =>
      intro st h
      rw [List.foldl_cons]
      rw [ih (loadStep st e) (fun e' he' => h e' (by simp [he']))]
      cases e with
      | stepSummary s' t c =>
          have hs : s' ≠ s := by
            have := h (.stepSummary s' t c) (by simp)
            simpa [Event.isSummaryFor] using this
          simp [loadStep, lookup_insertStep_ne _ _ _ _ hs]
      | cellReplicated => rfl
      | signalEmitted _ => rfl
      | lineageShift _ => rfl
      | other => rfl

theorem buffer_empty_of_aligned (pre : List Event) (h : boundaryAligned pre = true) :
    (processEvents pre).buffer = [] := by
  induction pre using List.reverseRecOn with
  | nil => rfl
  | append_singleton l e _ =>
      have he : e.isStepSummary = true := by
        simpa [boundaryAligned] using h
      rw [processEvents, List.foldl_append]
      cases e <;> simp_all [Event.isStepSummary, loadStep]

theorem countOf_bump (m : List (String × ℕ)) (k k' : String) :
    countOf (bump m k) k' = countOf m k' + (if k' = k then 1 else 0) := by
  induction m with
  | nil =>
      by_cases h : k' = k
      · simp [bump, countOf, List.lookup, h]
      · have hb : (k' == k) = false := by simp [beq_eq_false_iff_ne, h]
        simp [bump, countOf, List.lookup, h, hb]
  | cons p m ih =>
      by_cases hp : p.1 = k
      · subst hp
        by_cases h : k' = p.1
        · simp [bump, countOf, List.lookup, h]
        · have hb : (k' == p.1) = false := by simp [beq_eq_false_iff_ne, h]
          simp [bump, countOf, List.lookup, h, hb]
      · by_cases h : k' = p.1
        · subst h
          simp [bump, countOf, List.lookup, hp]
        · have hb : (k' == p.1) = false := by simp [beq_eq_false_iff_ne, h]
          simpa [bump, countOf, List.lookup, hp, hb] using ih

theorem digest_replications (buf : List Event) :
    ∀ d : DigestStats, (buf.foldl digestStep d).replications
      = d.replications + buf.countP Event.isCellReplicated := by
  induction buf with
  | nil => intro d; simp
  | cons e tl ih =>
      intro d
      rw [List.foldl_cons, ih (digestStep d e), List.countP_cons]
      cases e with
      | cellReplicated =>
          simp [digestStep, Event.isCellReplicated]
          omega
      | stepSummary s t c => simp [digestStep, Event.isCellReplicated]
      | signalEmitted _ => simp [digestStep, Event.isCellReplicated]
      | lineageShift _ => simp [digestStep, Event.isCellReplicated]
      | other => simp [digestStep, Event.isCellReplicated]

theorem digest_signals (buf : List Event) (t : String) :
    ∀ d : DigestStats, countOf (buf.foldl digestStep d).signals t
      = countOf d.signals t + buf.countP (Event.isSignalOn t) := by
  induction buf with
  | nil => intro d; simp
  | cons e tl ih =>
      intro d
      rw [List.foldl_cons, ih (digestStep d e), List.countP_cons]
      cases e with
      | signalEmitted t' =>
          by_cases h : t = t'
          · simp [digestStep, Event.isSignalOn, countOf_bump, h]
            omega
          · have h' : ¬ t' = t := fun hh => h hh.symm
            simp [digestStep, Event.isSignalOn, countOf_bump, h, h']
      | stepSummary s' a b => simp [digestStep, Event.isSignalOn]
      | cellReplicated => simp [digestStep, Event.isSignalOn]
      | lineageShift _ => simp [digestStep, Event.isSignalOn]
      | other => simp [digestStep, Event.isSignalOn]

theorem digest_shifts (buf : List Event) (l : String) :
    ∀ d : DigestStats, countOf (buf.foldl digestStep d).lineage_shifts l
      = countOf d.lineage_shifts l + buf.countP (Event.isShiftOf l) := by
  induction buf with
  | nil => intro d; simp
  | cons e tl ih =>
      intro d
      rw [List.foldl_cons, ih (digestStep d e), List.countP_cons]
      cases e with
      | lineageShift l' =>
          by_cases h : l = l'
          · simp [digestStep, Event.isShiftOf, countOf_bump, h]
            omega
          · have h' : ¬ l' = l := fun hh => h hh.symm
            simp [digestStep, Event.isShiftOf, countOf_bump, h, h']
      | stepSummary s' a b => simp [digestStep, Event.isShiftOf]
      | cellReplicated => simp [digestStep, Event.isShiftOf]
      | signalEmitted _ => simp [digestStep, Event.isShiftOf]
      | other => simp [digestStep, Event.isShiftOf]

theorem clamp_nonneg (x : ℚ) : 0 ≤ clamp x :=
  le_max_left 0 _

theorem clamp_le_one (x : ℚ) : clamp x ≤ 1 :=
  max_le (by norm_num) (min_le_left 1 x)

theorem suppression_nonneg (S : RunStats) : 0 ≤ computeSuppressionComponent S :=
  le_max_left 0 _

theorem suppression_le_one (S : RunStats) : computeSuppressionComponent S ≤ 1 := by
  unfold computeSuppressionComponent
  have hrate : (0 : ℚ) ≤ (S.total_replications : ℚ) / max 1 (S.step_count : ℚ) := by
    apply div_nonneg (Nat.cast_nonneg _)
    have : (0 : ℚ) ≤ 1 := by norm_num
    exact this.trans (le_max_left 1 _)
  have hm : (0 : ℚ) ≤ min ((S.total_replications : ℚ) / max 1 (S.step_count : ℚ)) 1 :=
    le_min hrate (by norm_num)
  apply max_le (by norm_num)
  linarith

theorem cell_loss_nonneg (S : RunStats) : 0 ≤ computeCellLossComponent S := by
  unfold computeCellLossComponent
  split
  · norm_num
  · exact clamp_nonneg _

theorem cell_loss_le_one (S : RunStats) : computeCellLossComponent S ≤ 1 := by
  unfold computeCellLossComponent
  split
  · norm_num
  · exact clamp_le_one _

theorem foldAgg_step_count (l : List (StepMetrics × StimEntry)) :
    ∀ a : Aggregates, (l.foldl accumulateStep a).step_count = a.step_count + l.length := by
  induction l with
  | nil => intro a; simp
  | cons p tl ih =>
      intro a
      rw [List.foldl_cons, ih]
      simp [accumulateStep, accumulateAggregates]
      omega

theorem foldAgg_threat_sum (l : List (StepMetrics × StimEntry)) :
    ∀ a : Aggregates, (l.foldl accumulateStep a).threat_sum
      = a.threat_sum + (l.map (fun p => p.1.threat_score)).sum := by
  induction l with
  | nil => intro a; simp
  | cons p tl ih =>
      intro a
      rw [List.foldl_cons, ih]
      simp [accumulateStep, accumulateAggregates]
      ring

theorem foldAgg_max_threat (l : List (StepMetrics × StimEntry)) :
    ∀ a : Aggregates, (l.foldl accumulateStep a).max_threat
      = (l.map (fun p => p.1.threat_score)).foldl max a.max_threat := by
  induction l with
  | nil => intro a; simp
  | cons p tl ih =>
      intro a
      rw [List.foldl_cons, ih]
      simp [accumulateStep, accumulateAggregates]

theorem foldl_max_listMax (l : List ℚ) :
    ∀ a : ℚ, l ≠ [] → l.foldl max a = max a (listMax l) := by
  induction l with
  | nil => intro a h; exact absurd rfl h
  | cons x tl ih =>
      intro a _
      cases tl with
      | nil => simp [listMax]
      | cons y tl' =>
          rw [List.foldl_cons, ih (max a x) (by simp), listMax, max_assoc]

theorem loadLines_malformed (pre : List Line) :
    ∀ (st : LoadState) (post : List Line), (∀ l ∈ pre, l.isMalformed = false) →
      List.foldlM loadLinesStep st (pre ++ .malformed :: post)
        = .error "failed to parse line" := by
  induction pre with
  | nil =>
      intro st post _
      rw [List.nil_append, List.foldlM_cons]
      rfl
  | cons l pre ih =>
      intro st post h
      cases l with
      | blank =>
          rw [List.cons_append, List.foldlM_cons]
          simpa [loadLinesStep] using ih st post (fun l' hl' => h l' (by simp [hl']))
      | malformed =>
          have := h .malformed (by simp)
          simp [Line.isMalformed] at this
      | record ts e =>
          rw [List.cons_append, List.foldlM_cons]
          simpa [loadLinesStep] using
            ih (loadStep st e) post (fun l' hl' => h l' (by simp [hl']))

theorem buildFold_fst (stimuli : List (ℤ × StimEntry)) (l : List (ℤ × StepMetrics)) :
    ∀ (r : List Row) (a : Aggregates),
      (l.foldl (buildStepRowsStep stimuli) (r, a)).1
        = r ++ l.map (fun p => mkBaseRow p.1 p.2 (stimGet stimuli p.1)) := by
  induction l with
  | nil => intro r a; simp
  | cons p tl ih =>
      intro r a
      rw [List.foldl_cons]
      show (tl.foldl (buildStepRowsStep stimuli)
        (r ++ [mkBaseRow p.1 p.2 (stimGet stimuli p.1)],
         accumulateAggregates a p.2 (stimGet stimuli p.1))).1 = _
      rw [ih]
      simp

theorem length_insertSorted (x : ℤ × StepMetrics) (l : List (ℤ × StepMetrics)) :
    (insertSorted x l).length = l.length + 1 := by
  induction l with
  | nil => rfl
  | cons y tl ih =>
      by_cases h : x.1 ≤ y.1
      · simp [insertSorted, h]
      · simp [insertSorted, h, ih]

theorem length_sortByStep (l : List (ℤ × StepMetrics)) :
    (sortByStep l).length = l.length := by
  induction l with
  | nil => rfl
  | cons x tl ih =>
      show (insertSorted x (sortByStep tl)).length = tl.length + 1
      rw [length_insertSorted, ih]

theorem stimulus_nonneg (S : RunStats) : 0 ≤ computeStimulusComponent S := by
  simp only [computeStimulusComponent]
  exact clamp_nonneg _

theorem stimulus_le_one (S : RunStats) : computeStimulusComponent S ≤ 1 := by
  simp only [computeStimulusComponent]
  exact clamp_le_one _

end Lemmas

/-- Sample run statistics with one step used to instantiate the fitness
bound theorem. -/
def statsC1 : RunStats :=
  ⟨1, 1, 1, 1, 1, 1, 0, 0, 0, 0, [], [], []⟩

/-- C1: for every RunStats with step_count >= 1 the fitness score equals
the weighted sum of the five clamped components, the weights sum to 1,
every component lies in [0,1], and hence the fitness score lies in [0,1]. -/
theorem fitness_score_formula_and_bounds (S : RunStats) (h : 1 ≤ S.step_count) :
    (deriveHarnessMarks S).fitness_score
      = 0.35 * clamp (S.avg_threat / 1.5)
        + 0.2 * computeSuppressionComponent S
        + 0.15 * computeCellLossComponent S
        + 0.2 * clamp (0.6 * computeLineagePressure S + 0.4 * computeLineageFocusRatio S)
        + 0.1 * computeStimulusComponent S
    ∧ (0.35 + 0.2 + 0.15 + 0.2 + 0.1 : ℚ) = 1
    ∧ 0 ≤ (deriveHarnessMarks S).fitness_score
    ∧ (deriveHarnessMarks S).fitness_score ≤ 1
    ∧ 0 ≤ clamp (S.avg_threat / 1.5) ∧ clamp (S.avg_threat / 1.5) ≤ 1
    ∧ 0 ≤ computeSuppressionComponent S ∧ computeSuppressionComponent S ≤ 1
    ∧ 0 ≤ computeCellLossComponent S ∧ computeCellLossComponent S ≤ 1
    ∧ 0 ≤ clamp (0.6 * computeLineagePressure S + 0.4 * computeLineageFocusRatio S)
    ∧ clamp (0.6 * computeLineagePressure S + 0.4 * computeLineageFocusRatio S) ≤ 1
    ∧ 0 ≤ computeStimulusComponent S ∧ computeStimulusComponent S ≤ 1 := by
  have hsc : ¬ S.step_count = 0 := by omega
  have heq : (deriveHarnessMarks S).fitness_score
      = 0.35 * clamp (S.avg_threat / 1.5)
        + 0.2 * computeSuppressionComponent S
        + 0.15 * computeCellLossComponent S
        + 0.2 * clamp (0.6 * computeLineagePressure S + 0.4 * computeLineageFocusRatio S)
        + 0.1 * computeStimulusComponent S := by
    simp only [deriveHarnessMarks, if_neg hsc]
  have c1 := clamp_nonneg (S.avg_threat / 1.5)
  have c1' := clamp_le_one (S.avg_threat / 1.5)
  have c2 := suppression_nonneg S
  have c2' := suppression_le_one S
  have c3 := cell_loss_nonneg S
  have c3' := cell_loss_le_one S
  have c4 := clamp_nonneg (0.6 * computeLineagePressure S + 0.4 * computeLineageFocusRatio S)
  have c4' := clamp_le_one (0.6 * computeLineagePressure S + 0.4 * computeLineageFocusRatio S)
  have c5 := stimulus_nonneg S
  have c5' := stimulus_le_one S
  refine ⟨heq, by norm_num, ?_, ?_, c1, c1', c2, c2', c3, c3', c4, c4', c5, c5'⟩
  · rw [heq]; linarith
  · rw [heq]; linarith

/-- Witness: the fitness formula and bounds at a concrete one-step run. -/
theorem fitness_score_formula_and_bounds_witness :
    1 ≤ statsC1.step_count ∧
    ((deriveHarnessMarks statsC1).fitness_score
      = 0.35 * clamp (statsC1.avg_threat / 1.5)
        + 0.2 * computeSuppressionComponent statsC1
        + 0.15 * computeCellLossComponent statsC1
        + 0.2 * clamp (0.6 * computeLineagePressure statsC1
            + 0.4 * computeLineageFocusRatio statsC1)
        + 0.1 * computeStimulusComponent statsC1
    ∧ (0.35 + 0.2 + 0.15 + 0.2 + 0.1 : ℚ) = 1
    ∧ 0 ≤ (deriveHarnessMarks statsC1).fitness_score
    ∧ (deriveHarnessMarks statsC1).fitness_score ≤ 1
    ∧ 0 ≤ clamp (statsC1.avg_threat / 1.5) ∧ clamp (statsC1.avg_threat / 1.5) ≤ 1
    ∧ 0 ≤ computeSuppressionComponent statsC1 ∧ computeSuppressionComponent statsC1 ≤ 1
    ∧ 0 ≤ computeCellLossComponent statsC1 ∧ computeCellLossComponent statsC1 ≤ 1
    ∧ 0 ≤ clamp (0.6 * computeLineagePressure statsC1
        + 0.4 * computeLineageFocusRatio statsC1)
    ∧ clamp (0.6 * computeLineagePressure statsC1
        + 0.4 * computeLineageFocusRatio statsC1) ≤ 1
    ∧ 0 ≤ computeStimulusComponent statsC1 ∧ computeStimulusComponent statsC1 ≤ 1) :=
  ⟨by decide, fitness_score_formula_and_bounds statsC1 (by decide)⟩

/-- Sample run statistics with one step and a high max threat used to
instantiate the breach characterisation. -/
def statsC2 : RunStats :=
  ⟨1, 0, 2, 0, 0, 0, 0, 0, 0, 0, [], [], []⟩

/-- C2: for every RunStats with step_count >= 1, breach_observed holds
exactly when fitness_score > 0.65, or max_threat > 1.1, or the cell-loss
component > 0.45, or the lineage component > 0.8. -/
theorem breach_observed_iff (S : RunStats) (h : 1 ≤ S.step_count) :
    (deriveHarnessMarks S).breach_observed = true ↔
      ((deriveHarnessMarks S).fitness_score > 0.65
        ∨ S.max_threat > 1.1
        ∨ computeCellLossComponent S > 0.45
        ∨ (deriveHarnessMarks S).lineage_component > 0.8) := by
  have hsc : ¬ S.step_count = 0 := by omega
  simp only [deriveHarnessMarks, if_neg hsc]
  exact decide_eq_true_iff

/-- Witness: the breach characterisation at a concrete one-step run whose
max threat exceeds 1.1. -/
theorem breach_observed_iff_witness :
    1 ≤ statsC2.step_count ∧
    ((deriveHarnessMarks statsC2).breach_observed = true ↔
      ((deriveHarnessMarks statsC2).fitness_score > 0.65
        ∨ statsC2.max_threat > 1.1
        ∨ computeCellLossComponent statsC2 > 0.45
        ∨ (deriveHarnessMarks statsC2).lineage_component > 0.8)) :=
  ⟨by decide, breach_observed_iff statsC2 (by decide)⟩

/-- C3: for a finalized step s whose window opens at a boundary (or at the
start of the stream) and closes at the last StepSummary carrying s, the
StepMetrics stored for s records the carried threat score and cell count,
counts the CellReplicated events of the window, and counts SignalEmitted
per topic and LineageShift per lineage over exactly that window: buffered
events are attributed to the following boundary. -/
theorem step_metrics_window (pre mid post : List Event) (s : ℤ) (t : ℚ) (c : ℤ)
    (topic lineage : String)
    (hpre : boundaryAligned pre = true)
    (hmid : ∀ e ∈ mid, e.isStepSummary = false)
    (hpost : ∀ e ∈ post, e.isSummaryFor s = false) :
    ((loadTelemetryPerStep (pre ++ mid ++ Event.stepSummary s t c :: post)).lookup s).map
        (fun m => (m.threat_score, m.cell_count, m.replications,
          countOf m.signals topic, countOf m.lineage_shifts lineage))
      = some (t, c, mid.countP Event.isCellReplicated,
          mid.countP (Event.isSignalOn topic), mid.countP (Event.isShiftOf lineage)) := by
  have hbuf : (processEvents pre).buffer = [] := buffer_empty_of_aligned pre hpre
  have key : (loadTelemetryPerStep (pre ++ mid ++ Event.stepSummary s t c :: post)).lookup s
      = some ⟨t, c, (digestBuffer mid).replications, (digestBuffer mid).signals,
          (digestBuffer mid).lineage_shifts⟩ := by
    simp only [loadTelemetryPerStep, processEvents, List.append_assoc, List.foldl_append]
    rw [show List.foldl loadStep (List.foldl loadStep ⟨[], []⟩ pre) mid
        = ⟨(List.foldl loadStep ⟨[], []⟩ pre).per_step, mid⟩ from by
      rw [foldl_loadStep_no_summary mid _ hmid]
      rw [show (List.foldl loadStep (⟨[], []⟩ : LoadState) pre).buffer = [] from hbuf]
      rfl]
    rw [List.foldl_cons]
    rw [foldl_lookup_no_summary_for post s _ hpost]
    exact lookup_insertStep_self _ _ _
  rw [key, Option.map_some']
  have hr := digest_replications mid ⟨0, [], []⟩
  have hs := digest_signals mid topic ⟨0, [], []⟩
  have hl := digest_shifts mid lineage ⟨0, [], []⟩
  simp only [digestBuffer]
  rw [hr, hs, hl]
  simp [countOf, List.lookup]

/-- Witness: a concrete stream with one earlier boundary; the window for
step 1 contains one replication, two signals on topic alert, and one
lineage shift to X. -/
theorem step_metrics_window_witness :
    (boundaryAligned [Event.stepSummary 0 1 4] = true
      ∧ (∀ e ∈ [Event.cellReplicated, Event.signalEmitted "alert", Event.lineageShift "X",
            Event.other, Event.signalEmitted "alert"], e.isStepSummary = false)
      ∧ (∀ e ∈ [Event.stepSummary 2 0 0], e.isSummaryFor 1 = false))
    ∧ ((loadTelemetryPerStep ([Event.stepSummary 0 1 4]
          ++ [Event.cellReplicated, Event.signalEmitted "alert", Event.lineageShift "X",
              Event.other, Event.signalEmitted "alert"]
          ++ Event.stepSummary 1 (1/2) 9 :: [Event.stepSummary 2 0 0])).lookup 1).map
        (fun m => (m.threat_score, m.cell_count, m.replications,
          countOf m.signals "alert", countOf m.lineage_shifts "X"))
      = some (1/2, 9,
          [Event.cellReplicated, Event.signalEmitted "alert", Event.lineageShift "X",
            Event.other, Event.signalEmitted "alert"].countP Event.isCellReplicated,
          [Event.cellReplicated, Event.signalEmitted "alert", Event.lineageShift "X",
            Event.other, Event.signalEmitted "alert"].countP (Event.isSignalOn "alert"),
          [Event.cellReplicated, Event.signalEmitted "alert", Event.lineageShift "X",
            Event.other, Event.signalEmitted "alert"].countP (Event.isShiftOf "X")) :=
  ⟨⟨by decide, by decide, by decide⟩,
    step_metrics_window _ _ _ _ _ _ _ _ (by decide) (by decide) (by decide)⟩

/-- C8: events after the last StepSummary are never digested into any
StepMetrics record: appending a boundary-free suffix leaves the per-step
mapping unchanged, so the trailing buffer is discarded with no flush. -/
theorem trailing_buffer_discarded (evs suffix : List Event)
    (h : ∀ e ∈ suffix, e.isStepSummary = false) :
    loadTelemetryPerStep (evs ++ suffix) = loadTelemetryPerStep evs := by
  simp only [loadTelemetryPerStep, processEvents, List.foldl_append]
  rw [foldl_loadStep_no_summary suffix _ h]

/-- Witness: a replication and a signal after the only StepSummary are
dropped from the per-step mapping. -/
theorem trailing_buffer_discarded_witness :
    (∀ e ∈ [Event.cellReplicated, Event.signalEmitted "x"], e.isStepSummary = false)
    ∧ loadTelemetryPerStep
        ([Event.stepSummary 0 1 2] ++ [Event.cellReplicated, Event.signalEmitted "x"])
      = loadTelemetryPerStep [Event.stepSummary 0 1 2] :=
  ⟨by decide, trailing_buffer_discarded _ _ (by decide)⟩

/-- C9: when the same step value is finalized more than once, the output
mapping holds exactly the StepMetrics finalized at the last boundary
carrying that step: whatever pre contains (earlier finalizations of s
included), the lookup returns the metrics digested from the buffer live at
that boundary, and no later event without an s boundary mutates it. -/
theorem duplicate_boundary_last_wins (pre post : List Event) (s : ℤ) (t : ℚ) (c : ℤ)
    (hpost : ∀ e ∈ post, e.isSummaryFor s = false) :
    (loadTelemetryPerStep (pre ++ Event.stepSummary s t c :: post)).lookup s
      = some ⟨t, c, (digestBuffer (processEvents pre).buffer).replications,
          (digestBuffer (processEvents pre).buffer).signals,
          (digestBuffer (processEvents pre).buffer).lineage_shifts⟩ := by
  simp only [loadTelemetryPerStep, processEvents, List.foldl_append, List.foldl_cons]
  rw [foldl_lookup_no_summary_for post s _ hpost]
  exact lookup_insertStep_self _ _ _

/-- Witness: step 1 is finalized twice; the mapping keeps the second
finalization, digesting only the single buffered replication. -/
theorem duplicate_boundary_last_wins_witness :
    (∀ e ∈ [Event.signalEmitted "x", Event.stepSummary 2 0 0], e.isSummaryFor 1 = false)
    ∧ (loadTelemetryPerStep ([Event.stepSummary 1 (1/2) 5, Event.cellReplicated]
          ++ Event.stepSummary 1 2 7 :: [Event.signalEmitted "x", Event.stepSummary 2 0 0])).lookup 1
      = some ⟨2, 7,
          (digestBuffer (processEvents [Event.stepSummary 1 (1/2) 5,
            Event.cellReplicated]).buffer).replications,
          (digestBuffer (processEvents [Event.stepSummary 1 (1/2) 5,
            Event.cellReplicated]).buffer).signals,
          (digestBuffer (processEvents [Event.stepSummary 1 (1/2) 5,
            Event.cellReplicated]).buffer).lineage_shifts⟩ :=
  ⟨by decide, duplicate_boundary_last_wins _ _ _ _ _ (by decide)⟩

/-- Counterexample to C4: with a malformed line between two well-formed
StepSummary lines, load_telemetry_per_step raises instead of skipping it,
so the rest of the file is never analysed. -/
theorem malformed_line_aborts_counterexample :
    loadTelemetryLines [Line.record 0 (Event.stepSummary 0 1 1), Line.malformed,
        Line.record 1 (Event.stepSummary 1 2 2)]
      = .error "failed to parse line" := by
  rfl

/-- C4 amended: a line that fails to parse makes load_telemetry_per_step
raise at the first malformed line; the load aborts, returns no per-step
data at all, and the remaining lines are not processed. -/
theorem malformed_line_aborts (pre post : List Line)
    (h : ∀ l ∈ pre, l.isMalformed = false) :
    loadTelemetryLines (pre ++ Line.malformed :: post)
      = .error "failed to parse line" :=
  loadLines_malformed pre ⟨[], []⟩ post h

/-- Witness: the amended abort behaviour on a concrete three-line file. -/
theorem malformed_line_aborts_witness :
    (∀ l ∈ [Line.record 0 (Event.stepSummary 0 1 1)], l.isMalformed = false)
    ∧ loadTelemetryLines ([Line.record 0 (Event.stepSummary 0 1 1)]
        ++ Line.malformed :: [Line.record 1 (Event.stepSummary 1 2 2)])
      = .error "failed to parse line" :=
  ⟨by decide, malformed_line_aborts _ _ (by decide)⟩

/-- Run statistics of a two-step run realising exactly the scenario
figures of C5: derived fitness 0.7 with activator total 0.1 and inhibitor
total 0.2 (threat 3 on both steps, no replications, cell counts 2 and 15,
no lineage shifts, total stimulus 0.6, five signals). -/
def statsC5 : RunStats :=
  ⟨2, 3, 3, 17/2, 2, 15, 0, 5, 0, 3/5, [("ping", 5)], [],
   [("activator", 1/10), ("inhibitor", 2/10), ("background", 3/10)]⟩

/-- Counterexample to C5: a run with fitness_score exactly 0.7, activator
stimulus 0.1 and inhibitor stimulus 0.2 does not produce the rule-1
increase-activator-amplitude recommendation; the guard fitness < 0.4 fails
and the breach branch answers instead. -/
theorem rule_one_scenario_counterexample :
    (deriveHarnessMarks statsC5).fitness_score = 7/10
    ∧ stimulusTotalFor statsC5 "activator" = 1/10
    ∧ stimulusTotalFor statsC5 "inhibitor" = 2/10
    ∧ (deriveHarnessMarks statsC5).recommended_mutation
        ≠ "increase activator spike amplitude and damp inhibitor recovery"
    ∧ (deriveHarnessMarks statsC5).recommended_mutation
        = "tighten attack cadence: alternate activator and inhibitor surges faster" := by
  have hm : (deriveHarnessMarks statsC5).recommended_mutation
      = "tighten attack cadence: alternate activator and inhibitor surges faster" := by
    norm_num [deriveHarnessMarks, statsC5, computeLineagePressure, computeLineageFocusRatio,
      computeSuppressionComponent, computeCellLossComponent, computeStimulusComponent, clamp,
      recommendMutation, stimulusTotalFor, List.lookup]
  refine ⟨?_, by rfl, by rfl, ?_, hm⟩
  · norm_num [deriveHarnessMarks, statsC5, computeLineagePressure, computeLineageFocusRatio,
      computeSuppressionComponent, computeCellLossComponent, computeStimulusComponent, clamp]
  · rw [hm]
    decide

/-- C5 amended: rule 1 cannot fire at fitness_score 0.7 because its guard
requires fitness_score < 0.4; instead the breach disjunct fitness > 0.65
holds, rules 1-2 are skipped, and the policy answers with breach rule 3
or 4 depending on whether total_signals < step_count. -/
theorem fitness_07_breach_rules (S : RunStats)
    (h : (deriveHarnessMarks S).fitness_score = 7/10) :
    (deriveHarnessMarks S).recommended_mutation
      = (if S.total_signals < S.step_count
         then "extend breach window with sustained activator pulses post-impact"
         else "tighten attack cadence: alternate activator and inhibitor surges faster") := by
  have hsc : ¬ S.step_count = 0 := by
    intro h0
    rw [deriveHarnessMarks] at h
    simp [h0] at h
    norm_num at h
  simp only [deriveHarnessMarks, if_neg hsc] at h ⊢
  rw [h]
  have hb : decide ((7 : ℚ)/10 > 0.65
      ∨ S.max_threat > 1.1
      ∨ computeCellLossComponent S > 0.45
      ∨ clamp (0.6 * computeLineagePressure S + 0.4 * computeLineageFocusRatio S) > 0.8)
      = true := decide_eq_true (Or.inl (by norm_num))
  rw [hb]
  simp only [recommendMutation]
  rw [if_neg (by norm_num : ¬ ((7 : ℚ)/10 < 0.4))]
  simp only [if_true]
  by_cases hts : S.total_signals < S.step_count
  · simp [hts]
  · simp [hts]

/-- Witness: the amended breach-rule behaviour at the concrete 0.7-fitness
run of the scenario. -/
theorem fitness_07_breach_rules_witness :
    (deriveHarnessMarks statsC5).fitness_score = 7/10
    ∧ (deriveHarnessMarks statsC5).recommended_mutation
        = (if statsC5.total_signals < statsC5.step_count
           then "extend breach window with sustained activator pulses post-impact"
           else "tighten attack cadence: alternate activator and inhibitor surges faster") := by
  have h : (deriveHarnessMarks statsC5).fitness_score = 7/10 := by
    norm_num [deriveHarnessMarks, statsC5, computeLineagePressure, computeLineageFocusRatio,
      computeSuppressionComponent, computeCellLossComponent, computeStimulusComponent, clamp]
  exact ⟨h, fitness_07_breach_rules statsC5 h⟩

/-- Length of the annotated row list: one row per finalized step. -/
theorem length_pipelineRows (evs : List Event) (stimRecords : Option (List StimulusRecord)) :
    (pipelineRows evs stimRecords).length = (loadTelemetryPerStep evs).length := by
  simp only [pipelineRows, applyMarks, buildStepRows]
  rw [buildFold_fst]
  simp [length_sortByStep]

/-- Counterexample to C6: requesting the absent column bogus beside the
valid column step yields no error at all (bogus is silently dropped and
every file is written); requesting only bogus does raise, but only after
the per-step CSV is already on disk. -/
theorem invalid_metric_not_fatal_counterexample :
    ("bogus" ∈ ["bogus", "step"] ∧ "bogus" ∉ rowKeys)
    ∧ runMain [Event.stepSummary 0 1 1] none ["bogus", "step"] false true
        = ([OutFile.stepCsv, OutFile.vegaJson], none)
    ∧ runMain [Event.stepSummary 0 1 1] none ["bogus"] false true
        = ([OutFile.stepCsv],
           some "No valid metrics provided for Vega-Lite spec generation.") :=
  ⟨⟨by decide, by decide⟩, by rfl, by rfl⟩

/-- C6 amended: build_vega_spec silently filters requested metrics down to
existing columns; the run fails only when no requested metric names a
column, and in that case the failure is raised after the per-step CSV (and
the optional lineage CSV) have been written, so partial output exists. -/
theorem invalid_metric_amended (evs : List Event) (stimRecords : Option (List StimulusRecord))
    (metrics : List String) (wantLineage : Bool)
    (h : loadTelemetryPerStep evs ≠ []) :
    ((runMain evs stimRecords metrics wantLineage true).2 = none
      ↔ ∃ m ∈ metrics, m ∈ rowKeys)
    ∧ ((runMain evs stimRecords metrics wantLineage true).2 ≠ none →
        (runMain evs stimRecords metrics wantLineage true).1
          = (if wantLineage then [OutFile.stepCsv, OutFile.lineageCsv]
             else [OutFile.stepCsv])) := by
  have hne : (loadTelemetryPerStep evs).isEmpty = false := by
    cases hl : loadTelemetryPerStep evs with
    | nil => exact absurd hl h
    | cons a l => rfl
  have hrows : (pipelineRows evs stimRecords).isEmpty = false := by
    have hlen := length_pipelineRows evs stimRecords
    cases hr : pipelineRows evs stimRecords with
    | nil =>
        rw [hr] at hlen
        exact absurd (List.length_eq_zero.mp hlen.symm) h
    | cons a l => rfl
  by_cases hfe : metrics.filter (fun m => rowKeys.contains m) = []
  · have hv : buildVegaSpec (pipelineRows evs stimRecords) metrics
        = .error "No valid metrics provided for Vega-Lite spec generation." := by
      rw [buildVegaSpec, if_neg (by simp [hrows]), hfe]
      rfl
    have hm : runMain evs stimRecords metrics wantLineage true
        = ((if wantLineage then [OutFile.stepCsv, OutFile.lineageCsv] else [OutFile.stepCsv]),
           some "No valid metrics provided for Vega-Lite spec generation.") := by
      simp [runMain, hne, hv]
    rw [hm]
    constructor
    · constructor
      · intro habs; exact absurd habs (by simp)
      · rintro ⟨m, hmm, hmk⟩
        have : m ∈ metrics.filter (fun m => rowKeys.contains m) :=
          List.mem_filter.mpr ⟨hmm, by simpa [List.elem_iff] using hmk⟩
        rw [hfe] at this
        exact absurd this (by simp)
    · intro _; rfl
  · have hv : buildVegaSpec (pipelineRows evs stimRecords) metrics
        = .ok (metrics.filter (fun m => rowKeys.contains m)) := by
      rw [buildVegaSpec, if_neg (by simp [hrows]),
        if_neg (by simpa [List.isEmpty_iff] using hfe)]
    have hm : runMain evs stimRecords metrics wantLineage true
        = ((if wantLineage then [OutFile.stepCsv, OutFile.lineageCsv] else [OutFile.stepCsv])
            ++ [OutFile.vegaJson], none) := by
      simp [runMain, hne, hv]
    rw [hm]
    constructor
    · constructor
      · intro _
        cases hf : metrics.filter (fun m => rowKeys.contains m) with
        | nil => exact absurd hf hfe
        | cons a l =>
            have ha : a ∈ metrics.filter (fun m => rowKeys.contains m) := by
              rw [hf]; exact List.mem_cons_self a l
            have := List.mem_filter.mp ha
            exact ⟨a, this.1, by simpa [List.elem_iff] using this.2⟩
      · intro _; rfl
    · intro habs
      exact absurd rfl habs

/-- Witness: the amended metric-validation behaviour on a one-step run
requesting only the absent column bogus. -/
theorem invalid_metric_amended_witness :
    loadTelemetryPerStep [Event.stepSummary 0 1 1] ≠ []
    ∧ (((runMain [Event.stepSummary 0 1 1] none ["bogus"] false true).2 = none
        ↔ ∃ m ∈ ["bogus"], m ∈ rowKeys)
      ∧ ((runMain [Event.stepSummary 0 1 1] none ["bogus"] false true).2 ≠ none →
          (runMain [Event.stepSummary 0 1 1] none ["bogus"] false true).1
            = (if false then [OutFile.stepCsv, OutFile.lineageCsv]
               else [OutFile.stepCsv]))) :=
  ⟨by decide, invalid_metric_amended _ _ _ _ (by decide)⟩

/-- Counterexample to C7: a single finalized step with threat_score -1
yields max_threat 0, not the maximum -1 of the threat scores, because the
fold starts at 0.0. -/
theorem max_threat_counterexample :
    (aggregateSteps [(⟨-1, 5, 0, [], []⟩, ⟨0, []⟩)]).max_threat = 0
    ∧ listMax ([((⟨-1, 5, 0, [], []⟩ : StepMetrics), (⟨0, []⟩ : StimEntry))].map
        (fun p => p.1.threat_score)) = -1
    ∧ (aggregateSteps [(⟨-1, 5, 0, [], []⟩, ⟨0, []⟩)]).max_threat
        ≠ listMax ([((⟨-1, 5, 0, [], []⟩ : StepMetrics), (⟨0, []⟩ : StimEntry))].map
            (fun p => p.1.threat_score)) := by
  refine ⟨by rfl, by rfl, ?_⟩
  norm_num [aggregateSteps, finaliseAggregates, initialiseAggregates, accumulateStep,
    accumulateAggregates, listMax]

/-- C7 amended: over every non-empty sequence of finalized steps,
avg_threat equals the mean of the threat scores, while max_threat equals
the maximum of 0 and the largest threat score (the fold is seeded with
0.0, so an all-negative run reports 0 instead of its true maximum). -/
theorem threat_aggregation_amended (l : List (StepMetrics × StimEntry)) (h : l ≠ []) :
    (aggregateSteps l).avg_threat
        = (l.map (fun p => p.1.threat_score)).sum / (l.length : ℚ)
    ∧ (aggregateSteps l).max_threat
        = max 0 (listMax (l.map (fun p => p.1.threat_score))) := by
  constructor
  · simp only [aggregateSteps, finaliseAggregates]
    rw [foldAgg_threat_sum, foldAgg_step_count]
    simp only [initialiseAggregates, Nat.zero_add, zero_add]
    have hmax : max 1 l.length = l.length := by
      have : 0 < l.length := List.length_pos.mpr h
      omega
    rw [hmax]
  · simp only [aggregateSteps, finaliseAggregates]
    rw [foldAgg_max_threat]
    simp only [initialiseAggregates]
    exact foldl_max_listMax _ 0 (by simpa using h)

/-- Witness: mean and clamped maximum at a concrete two-step run with
threat scores 2 and -1. -/
theorem threat_aggregation_amended_witness :
    ([((⟨2, 3, 0, [], []⟩ : StepMetrics), (⟨0, []⟩ : StimEntry)),
      ((⟨-1, 4, 1, [], []⟩ : StepMetrics), (⟨0, []⟩ : StimEntry))] ≠ [])
    ∧ ((aggregateSteps [(⟨2, 3, 0, [], []⟩, ⟨0, []⟩), (⟨-1, 4, 1, [], []⟩, ⟨0, []⟩)]).avg_threat
        = ([((⟨2, 3, 0, [], []⟩ : StepMetrics), (⟨0, []⟩ : StimEntry)),
            ((⟨-1, 4, 1, [], []⟩ : StepMetrics), (⟨0, []⟩ : StimEntry))].map
              (fun p => p.1.threat_score)).sum
          / (([((⟨2, 3, 0, [], []⟩ : StepMetrics), (⟨0, []⟩ : StimEntry)),
              ((⟨-1, 4, 1, [], []⟩ : StepMetrics), (⟨0, []⟩ : StimEntry))].length : ℚ))
      ∧ (aggregateSteps [(⟨2, 3, 0, [], []⟩, ⟨0, []⟩), (⟨-1, 4, 1, [], []⟩, ⟨0, []⟩)]).max_threat
        = max 0 (listMax ([((⟨2, 3, 0, [], []⟩ : StepMetrics), (⟨0, []⟩ : StimEntry)),
            ((⟨-1, 4, 1, [], []⟩ : StepMetrics), (⟨0, []⟩ : StimEntry))].map
              (fun p => p.1.threat_score)))) :=
  ⟨by decide, threat_aggregation_amended _ (by decide)⟩

/-- C10: every row of the per-step CSV carries the same six run-level
figures: each row's lineage_pressure, lineage_focus_ratio,
lineage_component, fitness_score, breach_observed and recommended_mutation
equal the once-computed run-level values (numeric ones rounded to six
decimals), never per-step quantities. -/
theorem row_marks_uniform (evs : List Event) (stimRecords : Option (List StimulusRecord))
    (h : loadTelemetryPerStep evs ≠ []) :
    ∀ r ∈ pipelineRows evs stimRecords,
      r.lineage_pressure = round6 (pipelineMarks evs stimRecords).lineage_pressure
      ∧ r.lineage_focus_ratio = round6 (pipelineMarks evs stimRecords).lineage_focus_ratio
      ∧ r.lineage_component = round6 (pipelineMarks evs stimRecords).lineage_component
      ∧ r.fitness_score = round6 (pipelineMarks evs stimRecords).fitness_score
      ∧ r.breach_observed = (pipelineMarks evs stimRecords).breach_observed
      ∧ r.recommended_mutation = (pipelineMarks evs stimRecords).recommended_mutation := by
  intro r hr
  simp only [pipelineRows, applyMarks, List.mem_map] at hr
  obtain ⟨r0, -, rfl⟩ := hr
  simp [pipelineMarks]

/-- Witness: uniform annotation columns on a concrete two-step run. -/
theorem row_marks_uniform_witness :
    loadTelemetryPerStep [Event.stepSummary 0 1 1, Event.stepSummary 1 2 2] ≠ []
    ∧ (∀ r ∈ pipelineRows [Event.stepSummary 0 1 1, Event.stepSummary 1 2 2] none,
        r.lineage_pressure
            = round6 (pipelineMarks [Event.stepSummary 0 1 1, Event.stepSummary 1 2 2]
                none).lineage_pressure
        ∧ r.lineage_focus_ratio
            = round6 (pipelineMarks [Event.stepSummary 0 1 1, Event.stepSummary 1 2 2]
                none).lineage_focus_ratio
        ∧ r.lineage_component
            = round6 (pipelineMarks [Event.stepSummary 0 1 1, Event.stepSummary 1 2 2]
                none).lineage_component
        ∧ r.fitness_score
            = round6 (pipelineMarks [Event.stepSummary 0 1 1, Event.stepSummary 1 2 2]
                none).fitness_score
        ∧ r.breach_observed
            = (pipelineMarks [Event.stepSummary 0 1 1, Event.stepSummary 1 2 2]
                none).breach_observed
        ∧ r.recommended_mutation
            = (pipelineMarks [Event.stepSummary 0 1 1, Event.stepSummary 1 2 2]
                none).recommended_mutation) :=
  ⟨by decide, row_marks_uniform _ _ (by decide)⟩

end SelfGrow
